import Mathlib

/-!
Shallow embedding of the `codely-backend` HTTP relay (`src/index.ts`).

The server has a single interesting handler, `POST /api/generate`, which
validates the request body, assembles a prompt from a fixed system
instruction plus optional conversation history, calls an external
generation backend, and post-processes the returned text by removing
markdown code-fence markers and trimming whitespace.

The embedding below models:
  * the output sanitization block (lines 72-77): two JavaScript
    `String.replace` calls with the regexes
    Repl1 with pattern three backticks, an optional language tag among
    typescript, tsx, jsx, javascript, and an optional newline, global;
    Repl2 with pattern three backticks and an optional newline anchored
    at the end of the string, global; followed by `String.trim`;
  * the request handler (lines 43-91): validation, prompt assembly,
    backend call, success and error responses.  Timestamps are
    abstracted away; the backend is a parameter.
-/

namespace Codely

/-- The backtick character U+0060, written via its code point. -/
def btk : Char := Char.ofNat 96

/-- The three-backtick code-fence marker, as a character list. -/
def fenceMarker : List Char := [btk, btk, btk]

/-- Consume the optional language tag of the first replace regex in
`src/index.ts` line 73.  The regex alternation tries the alternatives in
source order (typescript, tsx, jsx, javascript); since the rest of the
pattern (an optional newline) never fails, the first alternative that is
a prefix wins, and when none matches the optional group matches the
empty string. -/
def dropTag (s : List Char) : List Char :=
  if List.isPrefixOf ("typescript".data) s then s.drop 10
  else if List.isPrefixOf ("tsx".data) s then s.drop 3
  else if List.isPrefixOf ("jsx".data) s then s.drop 3
  else if List.isPrefixOf ("javascript".data) s then s.drop 10
  else s

/-- Consume the optional trailing newline of the first replace regex. -/
def dropNl : List Char → List Char
  | [] => []
  | c :: cs => if c = '\n' then cs else c :: cs

/-- Fuel-indexed worker for the first (global) replace of
`src/index.ts` line 72-75: scanning left to right, every match of
three backticks followed by an optional language tag and an optional
newline is deleted.  The fuel only serves to make the recursion
structural; `stripFences` instantiates it with the list length, which
is always sufficient. -/
def stripFencesAux : Nat → List Char → List Char
  | _, [] => []
  | 0, s => s
  | fuel + 1, c :: cs =>
    if c = btk ∧ cs.take 2 = [btk, btk] then
      stripFencesAux fuel (dropNl (dropTag (cs.drop 2)))
    else
      c :: stripFencesAux fuel cs

/-- The first replace of the sanitization block: remove every
occurrence of a code-fence marker (with optional language tag and
optional following newline) anywhere in the text. -/
def stripFences (s : List Char) : List Char :=
  stripFencesAux s.length s

/-- The second replace of the sanitization block (`src/index.ts`
line 76): remove a trailing three-backtick marker, together with a
newline that immediately follows it, at the very end of the string.
Since the match must end at the end of the string, at most one
(leftmost, greedy) match exists, so the global flag is irrelevant. -/
def stripTrailingFence (s : List Char) : List Char :=
  if List.isSuffixOf ("```\n".data) s then s.take (s.length - 4)
  else if List.isSuffixOf ("```".data) s then s.take (s.length - 3)
  else s

/-- The characters removed by JavaScript `String.prototype.trim`:
ECMAScript WhiteSpace (tab, vertical tab, form feed, space, no-break
space, zero-width no-break space, and the Unicode space separators)
together with the line terminators LF, CR, LS, PS. -/
def jsWhitespaceChars : List Char :=
  [' ', '\t', '\n', '\r', Char.ofNat 0x0B, Char.ofNat 0x0C,
   Char.ofNat 0xA0, Char.ofNat 0x1680, Char.ofNat 0x2000,
   Char.ofNat 0x2001, Char.ofNat 0x2002, Char.ofNat 0x2003,
   Char.ofNat 0x2004, Char.ofNat 0x2005, Char.ofNat 0x2006,
   Char.ofNat 0x2007, Char.ofNat 0x2008, Char.ofNat 0x2009,
   Char.ofNat 0x200A, Char.ofNat 0x2028, Char.ofNat 0x2029,
   Char.ofNat 0x202F, Char.ofNat 0x205F, Char.ofNat 0x3000,
   Char.ofNat 0xFEFF]

/-- Whether a character is JavaScript trim whitespace. -/
def jsWhitespace (c : Char) : Bool :=
  jsWhitespaceChars.contains c

/-- JavaScript `String.prototype.trim` on a character list: drop
whitespace from the front, then from the back. -/
def jsTrim (s : List Char) : List Char :=
  ((s.dropWhile jsWhitespace).reverse.dropWhile jsWhitespace).reverse

/-- JavaScript `String.prototype.trim` on strings. -/
def jsTrimStr (s : String) : String :=
  String.mk (jsTrim s.data)

/-- The sanitization block of `src/index.ts` lines 72-77: first
replace (all fence markers), second replace (trailing bare fence),
then trim. -/
def sanitize (s : String) : String :=
  String.mk (jsTrim (stripTrailingFence (stripFences s.data)))

/-- The fixed system instruction `SYSTEM_PROMPT` of `src/index.ts`
lines 17-30, verbatim. -/
def SYSTEM_PROMPT : String :=
  "You are an expert React and shadcn/ui developer. Generate clean, modern, and functional React components that work in a browser environment.\n\nRules:\n1. Generate PLAIN REACT components (not Next.js specific)\n2. DO NOT use Next.js imports like \x27next/link\x27, \x27next/image\x27, \x27next/router\x27, etc.\n3. Use standard React and HTML elements instead (use <a> instead of <Link>, <img> instead of <Image>)\n4. Use Tailwind CSS for styling\n5. Use lucide-react for icons when needed\n6. Make components responsive and accessible\n7. Use modern React patterns (hooks, functional components)\n8. Generate complete, self-contained components\n9. Export as default function\n\nReturn ONLY the code without explanations or markdown code blocks. The code should be ready to run in a browser sandbox."

/-- One prior conversation turn, an element of `conversationHistory`
(interface `GenerateRequest` of `src/index.ts` lines 32-35). -/
structure ChatTurn where
  role : String
  content : String
deriving DecidableEq

/-- The runtime request body of `POST /api/generate`.  The TypeScript
interface declares `message : string` and an optional
`conversationHistory`, but at runtime either field may be absent
(JavaScript `undefined`), which `Option` models: `none` is an absent
field. -/
structure GenerateRequest where
  message : Option String
  conversationHistory : Option (List ChatTurn)
deriving DecidableEq

/-- Outcome of the external generation call
(`model.generateContent` / `response.text()`): either the raw
generated text, or a thrown error carrying a message. -/
inductive BackendOutcome where
  | ok (text : String)
  | failure (message : String)
deriving DecidableEq

/-- The observable HTTP response of the handler, timestamps
abstracted: 200 with the sanitized code, 400 with an error body, or
500 with an error body and details. -/
inductive ApiResponse where
  | ok (code : String)
  | badRequest (error : String)
  | serverError (error : String) (details : String)
deriving DecidableEq

/-- Prompt assembly of `src/index.ts` lines 54-64: the system prompt,
then (only when the history is non-empty) the "Previous conversation:"
section accumulated with `forEach` appends, then the labelled user
request and the fixed trailing instruction. -/
def buildPrompt (message : String) (history : List ChatTurn) : String :=
  let p0 := SYSTEM_PROMPT ++ "\n\n"
  let p1 :=
    if 0 < history.length then
      (history.foldl (fun acc msg => acc ++ msg.role ++ ": " ++ msg.content ++ "\n")
        (p0 ++ "Previous conversation:\n")) ++ "\n"
    else p0
  p1 ++ "User request: " ++ message ++ "\n\nGenerate the Next.js component code:"

/-- The `POST /api/generate` handler body (lines 46-89) applied to a
present request body.  The result pairs the HTTP response with the
list of prompts sent to the backend, so that "no backend call" is the
empty list and "exactly one call, no retry" is a singleton.
Validation `if (!message)` tests JavaScript falsiness, which for the
`message` field means absent (`none`) or the empty string.  A backend
`failure` propagates to the catch block, which answers 500. -/
def handleGenerate (backend : String → BackendOutcome) (req : GenerateRequest) :
    ApiResponse × List String :=
  match req.message with
  | none => (ApiResponse.badRequest "Message is required", [])
  | some msg =>
    if msg = "" then (ApiResponse.badRequest "Message is required", [])
    else
      let fullPrompt := buildPrompt msg (req.conversationHistory.getD [])
      match backend fullPrompt with
      | BackendOutcome.ok text => (ApiResponse.ok (sanitize text), [fullPrompt])
      | BackendOutcome.failure m =>
          (ApiResponse.serverError "Failed to generate code" m, [fullPrompt])

/-- The message of the TypeError raised by JavaScript when line 47
destructures an `undefined` request body. -/
def DESTRUCTURE_ERROR_MESSAGE : String :=
  "Cannot destructure property \x27message\x27 of \x27request.body\x27 as it is undefined."

/-- The full `POST /api/generate` handler, including the case of an
absent (undefined) request body: destructuring `request.body` on
line 47 then throws inside the `try` block, and the generic catch
block (lines 83-89) answers 500 with the thrown error's message. -/
def handleRequest (backend : String → BackendOutcome) (body : Option GenerateRequest) :
    ApiResponse × List String :=
  match body with
  | none => (ApiResponse.serverError "Failed to generate code" DESTRUCTURE_ERROR_MESSAGE, [])
  | some req => handleGenerate backend req

/-- Executable contiguous-subsequence test: whether `needle` occurs as a
contiguous run inside the second list.  Used to state that a text does
not contain a given marker. -/
def containsSeq (needle : List Char) : List Char → Bool
  | [] => List.isPrefixOf needle []
  | c :: cs => List.isPrefixOf needle (c :: cs) || containsSeq needle cs

/-- The transcript line the handler appends for one prior turn
(`src/index.ts` line 59): `role: content` followed by a newline. -/
def transcriptLine (t : ChatTurn) : String :=
  t.role ++ ": " ++ t.content ++ "\n"

/-- Concatenation of a list of strings in order. -/
def concatAll : List String → String
  | [] => ""
  | l :: ls => l ++ concatAll ls

end Codely

namespace Codely

/-! ### Length bounds for the fence-removal workers -/

theorem dropTag_length_le (s : List Char) : (dropTag s).length ≤ s.length := by
  unfold dropTag
  repeat' split
  all_goals first
    | exact Nat.le_refl _
    | (simp only [List.length_drop]; omega)

theorem dropNl_length_le (s : List Char) : (dropNl s).length ≤ s.length := by
  cases s with
  | nil => exact Nat.le_refl _
  | cons c cs =>
    simp only [dropNl]
    split
    · simp only [List.length_cons]; omega
    · exact Nat.le_refl _

/-! ### Fuel irrelevance for `stripFencesAux` -/

theorem stripFencesAux_nil (f : Nat) : stripFencesAux f [] = [] := by
  cases f <;> rfl

theorem stripFencesAux_congr :
    ∀ (f g : Nat) (s : List Char), s.length ≤ f → s.length ≤ g →
      stripFencesAux f s = stripFencesAux g s := by
  intro f
  induction f with
  | zero =>
    intro g s hf _
    cases s with
    | nil => rw [stripFencesAux_nil, stripFencesAux_nil]
    | cons c cs => simp at hf
  | succ f ih =>
    intro g s hf hg
    cases s with
    | nil => rw [stripFencesAux_nil, stripFencesAux_nil]
    | cons c cs =>
      cases g with
      | zero => simp at hg
      | succ g =>
        simp only [stripFencesAux]
        simp only [List.length_cons] at hf hg
        have h1 := dropNl_length_le (dropTag (cs.drop 2))
        have h2 := dropTag_length_le (cs.drop 2)
        have h3 : (cs.drop 2).length ≤ cs.length := by
          simp only [List.length_drop]; omega
        split
        · exact ih g _ (by omega) (by omega)
        · rw [ih g cs (by omega) (by omega)]

/-! ### Unfolding lemmas for `stripFences` -/

theorem stripFences_nil : stripFences [] = [] := rfl

theorem stripFences_cons_pos {c : Char} {cs : List Char}
    (h : c = btk ∧ cs.take 2 = [btk, btk]) :
    stripFences (c :: cs) = stripFences (dropNl (dropTag (cs.drop 2))) := by
  show stripFencesAux (c :: cs).length (c :: cs) = _
  simp only [List.length_cons, stripFencesAux]
  rw [if_pos h]
  apply stripFencesAux_congr
  · have h1 := dropNl_length_le (dropTag (cs.drop 2))
    have h2 := dropTag_length_le (cs.drop 2)
    have h3 : (cs.drop 2).length ≤ cs.length := by
      simp only [List.length_drop]; omega
    omega
  · exact Nat.le_refl _

theorem stripFences_cons_neg {c : Char} {cs : List Char}
    (h : ¬ (c = btk ∧ cs.take 2 = [btk, btk])) :
    stripFences (c :: cs) = c :: stripFences cs := by
  show stripFencesAux (c :: cs).length (c :: cs) = _
  simp only [List.length_cons, stripFencesAux]
  rw [if_neg h]
  rfl

end Codely

namespace Codely

/-! ### `stripFences` cannot begin with backticks unless the input did.

In the scanning recursion, a non-matching position keeps its head
character, and a matching position implies the input itself starts with
three backticks; hence the first one or two characters of the output
being backticks forces the same of the input. -/

theorem stripFences_take_one {s : List Char}
    (h : (stripFences s).take 1 = [btk]) : s.take 1 = [btk] := by
  cases s with
  | nil => rw [stripFences_nil] at h; simp at h
  | cons c cs =>
    by_cases hc : c = btk ∧ cs.take 2 = [btk, btk]
    · rw [hc.1]
      exact rfl
    · rw [stripFences_cons_neg hc] at h
      exact h

theorem stripFences_take_two {s : List Char}
    (h : (stripFences s).take 2 = [btk, btk]) : s.take 2 = [btk, btk] := by
  cases s with
  | nil => rw [stripFences_nil] at h; simp at h
  | cons c cs =>
    by_cases hc : c = btk ∧ cs.take 2 = [btk, btk]
    · cases cs with
      | nil => exact absurd hc.2 (by simp)
      | cons d ds =>
        have h2 : d :: ds.take 1 = [btk, btk] := hc.2
        have hd : d = btk := (List.cons_eq_cons.mp h2).1
        show c :: (d :: ds).take 1 = [btk, btk]
        rw [hc.1, hd]
        exact rfl
    · rw [stripFences_cons_neg hc] at h
      have h2 : c :: (stripFences cs).take 1 = [btk, btk] := h
      obtain ⟨h3, h4⟩ := List.cons_eq_cons.mp h2
      have h5 := stripFences_take_one h4
      show c :: cs.take 1 = [btk, btk]
      rw [h3, h5]

/-! ### The output of `stripFences` never contains a fence marker. -/

theorem stripFences_fence_free_aux :
    ∀ (n : Nat) (s : List Char), s.length ≤ n →
      ¬ (fenceMarker <:+: stripFences s) := by
  intro n
  induction n with
  | zero =>
    intro s hs
    cases s with
    | nil =>
      rw [stripFences_nil]
      intro hinf
      have hlen := hinf.sublist.length_le
      simp [fenceMarker] at hlen
    | cons c cs => simp at hs
  | succ n ih =>
    intro s hs
    cases s with
    | nil =>
      rw [stripFences_nil]
      intro hinf
      have hlen := hinf.sublist.length_le
      simp [fenceMarker] at hlen
    | cons c cs =>
      simp only [List.length_cons] at hs
      by_cases hc : c = btk ∧ cs.take 2 = [btk, btk]
      · rw [stripFences_cons_pos hc]
        apply ih
        have h1 := dropNl_length_le (dropTag (cs.drop 2))
        have h2 := dropTag_length_le (cs.drop 2)
        have h3 : (cs.drop 2).length ≤ cs.length := by
          simp only [List.length_drop]; omega
        omega
      · rw [stripFences_cons_neg hc]
        intro hinf
        rcases List.infix_cons_iff.mp hinf with hpre | hinf2
        · have hpre2 : btk :: [btk, btk] <+: c :: stripFences cs := hpre
          obtain ⟨hcb, hpre3⟩ := List.cons_prefix_cons.mp hpre2
          have htake : [btk, btk] = (stripFences cs).take 2 := by
            have h6 := List.prefix_iff_eq_take.mp hpre3
            simpa using h6
          exact hc ⟨hcb.symm, stripFences_take_two htake.symm⟩
        · exact ih cs (by omega) hinf2

theorem stripFences_fence_free (s : List Char) :
    ¬ (fenceMarker <:+: stripFences s) :=
  stripFences_fence_free_aux s.length s (Nat.le_refl _)

/-! ### On fence-free input, `stripFences` is the identity. -/

theorem stripFences_eq_self_aux :
    ∀ (n : Nat) (s : List Char), s.length ≤ n →
      ¬ (fenceMarker <:+: s) → stripFences s = s := by
  intro n
  induction n with
  | zero =>
    intro s hs _
    cases s with
    | nil => exact stripFences_nil
    | cons c cs => simp at hs
  | succ n ih =>
    intro s hs h
    cases s with
    | nil => exact stripFences_nil
    | cons c cs =>
      simp only [List.length_cons] at hs
      by_cases hc : c = btk ∧ cs.take 2 = [btk, btk]
      · exfalso
        apply h
        apply List.IsPrefix.isInfix
        apply List.cons_prefix_cons.mpr
        refine ⟨hc.1.symm, ?_⟩
        apply List.prefix_iff_eq_take.mpr
        simpa using hc.2.symm
      · rw [stripFences_cons_neg hc]
        rw [ih cs (by omega) (fun hf => h (List.infix_cons hf))]

theorem stripFences_eq_self {s : List Char} (h : ¬ (fenceMarker <:+: s)) :
    stripFences s = s :=
  stripFences_eq_self_aux s.length s (Nat.le_refl _) h

/-! ### On fence-free input, the second replace is the identity. -/

theorem stripTrailingFence_eq_self {s : List Char}
    (h : ¬ (fenceMarker <:+: s)) : stripTrailingFence s = s := by
  unfold stripTrailingFence
  split
  · next hsuf =>
    exfalso
    apply h
    have h1 : ("```\n".data) <:+ s := List.isSuffixOf_iff_suffix.mp hsuf
    have h2 : fenceMarker <+: ("```\n".data) := ⟨['\n'], by decide⟩
    exact List.IsInfix.trans ( List.IsPrefix.isInfix h2) ( List.IsSuffix.isInfix h1)
  · split
    · next hsuf =>
      exfalso
      apply h
      have h1 : ("```".data) <:+ s := List.isSuffixOf_iff_suffix.mp hsuf
      have h2 : fenceMarker = "```".data := by decide
      rw [h2]
      exact List.IsSuffix.isInfix h1
    · rfl

end Codely

namespace Codely

/-! ### Properties of JavaScript trim -/

theorem dropWhile_head_false {p : Char → Bool} :
    ∀ {l : List Char} {c : Char} {cs : List Char},
      l.dropWhile p = c :: cs → p c = false := by
  intro l
  induction l with
  | nil => intro c cs h; simp at h
  | cons d ds ih =>
    intro c cs h
    by_cases hd : p d
    · rw [List.dropWhile_cons_of_pos hd] at h
      exact ih h
    · rw [List.dropWhile_cons_of_neg hd] at h
      obtain ⟨h1, _⟩ := List.cons_eq_cons.mp h
      rw [← h1]
      exact Bool.eq_false_iff.mpr hd

/-- `jsTrim` returns a contiguous segment of its input. -/
theorem jsTrim_infix_of (s : List Char) : jsTrim s <:+: s := by
  have h1 : (s.dropWhile jsWhitespace) <:+ s := List.dropWhile_suffix _
  have h2 : ((s.dropWhile jsWhitespace).reverse.dropWhile jsWhitespace) <:+
      (s.dropWhile jsWhitespace).reverse := List.dropWhile_suffix _
  have h3 : jsTrim s <+: (s.dropWhile jsWhitespace) := by
    show (((s.dropWhile jsWhitespace).reverse.dropWhile jsWhitespace).reverse) <+: _
    rw [← @List.reverse_suffix Char
      (((s.dropWhile jsWhitespace).reverse.dropWhile jsWhitespace).reverse)
      (s.dropWhile jsWhitespace)]
    rw [List.reverse_reverse]
    exact h2
  exact List.IsInfix.trans ( List.IsPrefix.isInfix h3) ( List.IsSuffix.isInfix h1)

/-- JavaScript trim is idempotent. -/
theorem jsTrim_idem (s : List Char) : jsTrim (jsTrim s) = jsTrim s := by
  cases hv : (s.dropWhile jsWhitespace).reverse.dropWhile jsWhitespace with
  | nil =>
    show jsTrim (((s.dropWhile jsWhitespace).reverse.dropWhile jsWhitespace).reverse) =
        ((s.dropWhile jsWhitespace).reverse.dropWhile jsWhitespace).reverse
    rw [hv]
    rfl
  | cons d t =>
    have hd : jsWhitespace d = false := dropWhile_head_false hv
    cases hu : s.dropWhile jsWhitespace with
    | nil =>
      rw [hu] at hv
      simp at hv
    | cons c cs =>
      have hc : jsWhitespace c = false := dropWhile_head_false hu
      have hsuffix : (d :: t) <:+ (c :: cs).reverse := by
        rw [← hu, ← hv]
        exact List.dropWhile_suffix _
      have hpre : (d :: t).reverse <+: (c :: cs) := by
        rw [← @List.reverse_suffix Char ((d :: t).reverse) (c :: cs)]
        rw [List.reverse_reverse]
        exact hsuffix
      have hne : (d :: t).reverse ≠ [] := by simp
      obtain ⟨e, r, her⟩ := List.exists_cons_of_ne_nil hne
      have hec : e = c := by
        rw [her] at hpre
        exact (List.cons_prefix_cons.mp hpre).1
      have hpe : jsWhitespace e = false := by rw [hec]; exact hc
      have hstep1 : ((d :: t).reverse).dropWhile jsWhitespace = (d :: t).reverse := by
        rw [her]
        exact List.dropWhile_cons_of_neg (by simp [hpe])
      show jsTrim (((s.dropWhile jsWhitespace).reverse.dropWhile jsWhitespace).reverse) =
          ((s.dropWhile jsWhitespace).reverse.dropWhile jsWhitespace).reverse
      rw [hv]
      show ((((d :: t).reverse).dropWhile jsWhitespace).reverse.dropWhile jsWhitespace).reverse
          = (d :: t).reverse
      rw [hstep1, List.reverse_reverse]
      rw [List.dropWhile_cons_of_neg (by simp [hd])]

end Codely

namespace Codely

/-! ### Bridging lemmas for statements -/

theorem containsSeq_iff (n : List Char) :
    ∀ (h : List Char), containsSeq n h = true ↔ n <:+: h := by
  intro h
  induction h with
  | nil => simp [containsSeq]
  | cons c cs ih => simp [containsSeq, ih, List.infix_cons_iff]

theorem foldl_transcript (hs : List ChatTurn) : ∀ acc : String,
    hs.foldl (fun acc msg => acc ++ msg.role ++ ": " ++ msg.content ++ "\n") acc
      = acc ++ concatAll (hs.map transcriptLine) := by
  induction hs with
  | nil => intro acc; simp [concatAll]
  | cons t ts ih =>
    intro acc
    simp only [List.foldl_cons, List.map_cons, concatAll]
    rw [ih]
    simp [transcriptLine, String.append_assoc]

end Codely

namespace Codely

/-- C1: the output sanitizer is idempotent: for every text `x`,
applying the sanitization (fence-marker removal followed by whitespace
trim) twice yields the same result as applying it once. -/
theorem sanitize_idempotent (x : String) : sanitize (sanitize x) = sanitize x := by
  have h1 : ¬ (fenceMarker <:+: stripFences x.data) := stripFences_fence_free x.data
  have h3 : ¬ (fenceMarker <:+: jsTrim (stripFences x.data)) :=
    fun hin => h1 (List.IsInfix.trans hin (jsTrim_infix_of _))
  show String.mk
      (jsTrim (stripTrailingFence (stripFences
        (jsTrim (stripTrailingFence (stripFences x.data)))))) =
    String.mk (jsTrim (stripTrailingFence (stripFences x.data)))
  rw [stripTrailingFence_eq_self h1]
  rw [stripFences_eq_self h3, stripTrailingFence_eq_self h3, jsTrim_idem]

/-- C2 counterexample: the sanitizer does not leave interior fence
markers in place.  On `"a\n```\nb"`, whose only fence marker is
interior, the claimed behaviour (remove only leading and trailing
markers, then trim) would return the input unchanged, but the code
returns `"a\nb"`. -/
theorem sanitize_interior_counterexample :
    sanitize "a\n```\nb" = "a\nb" ∧ sanitize "a\n```\nb" ≠ "a\n```\nb" :=
  ⟨by decide, by decide⟩

/-- C2 amended: the sanitizer removes every code-fence marker (three
backticks, optionally followed by a language tag, then an optional
newline) wherever it occurs — leading, trailing or interior — then
removes a trailing bare fence and trims surrounding whitespace; in
particular its output never contains a triple-backtick marker, and the
interior marker of `"a\n```\nb"` is removed. -/
theorem sanitize_removes_all_markers :
    (∀ x : String, ¬ (fenceMarker <:+: (sanitize x).data)) ∧
    sanitize "a\n```\nb" = "a\nb" := by
  constructor
  · intro x hin
    have h1 : ¬ (fenceMarker <:+: stripFences x.data) := stripFences_fence_free x.data
    have hdata : (sanitize x).data = jsTrim (stripTrailingFence (stripFences x.data)) := rfl
    rw [hdata, stripTrailingFence_eq_self h1] at hin
    exact h1 (List.IsInfix.trans hin (jsTrim_infix_of _))
  · decide

/-- C4: the sanitizer strips a leading fence with the `tsx` tag and a
trailing fence from `"```tsx\nCODE\n```"`, yielding `"CODE"`, and the
same with no language tag or with the `javascript`, `jsx` or
`typescript` tags. -/
theorem sanitize_fence_examples :
    sanitize "```tsx\nCODE\n```" = "CODE" ∧
    sanitize "```\nCODE\n```" = "CODE" ∧
    sanitize "```javascript\nCODE\n```" = "CODE" ∧
    sanitize "```jsx\nCODE\n```" = "CODE" ∧
    sanitize "```typescript\nCODE\n```" = "CODE" :=
  ⟨by decide, by decide, by decide, by decide, by decide⟩

/-- C5: on a text containing no triple-backtick marker anywhere, the
sanitizer acts as plain JavaScript whitespace trimming. -/
theorem sanitize_no_marker_eq_trim (x : String)
    (h : ¬ (fenceMarker <:+: x.data)) : sanitize x = jsTrimStr x := by
  show String.mk (jsTrim (stripTrailingFence (stripFences x.data))) =
    String.mk (jsTrim x.data)
  rw [stripFences_eq_self h, stripTrailingFence_eq_self h]

/-- Witness for C5 at the concrete input `"  hi  "`. -/
theorem sanitize_no_marker_eq_trim_witness :
    (¬ (fenceMarker <:+: ("  hi  " : String).data)) ∧
    sanitize "  hi  " = jsTrimStr "  hi  " :=
  ⟨by decide, sanitize_no_marker_eq_trim "  hi  " (by decide)⟩

end Codely

namespace Codely

/-- C3: a `POST /api/generate` request whose `message` field is absent
or the empty string is answered 400 with `error: "Message is
required"`, and the external generation backend is never called. -/
theorem missing_message_rejected (backend : String → BackendOutcome)
    (req : GenerateRequest) (h : req.message = none ∨ req.message = some "") :
    handleGenerate backend req = (ApiResponse.badRequest "Message is required", []) := by
  rcases h with h | h <;> simp [handleGenerate, h]

/-- Witness for C3 at a concrete request with an absent message. -/
theorem missing_message_rejected_witness :
    ((GenerateRequest.mk none none).message = none ∨
      (GenerateRequest.mk none none).message = some "") ∧
    handleGenerate (fun _ => BackendOutcome.ok "") (GenerateRequest.mk none none) =
      (ApiResponse.badRequest "Message is required", []) :=
  ⟨Or.inl rfl, missing_message_rejected _ _ (Or.inl rfl)⟩

set_option maxRecDepth 10000 in
/-- C6: for a valid request with an omitted or empty
`conversationHistory`, the assembled prompt sent to the backend is
exactly the fixed system instruction followed by the labelled user
message, and the fixed scaffolding contains no "Previous conversation"
section. -/
theorem prompt_empty_history (backend : String → BackendOutcome) (msg : String)
    (hist : Option (List ChatTurn)) (hmsg : msg ≠ "")
    (hh : hist = none ∨ hist = some []) :
    (handleGenerate backend (GenerateRequest.mk (some msg) hist)).2 =
      [SYSTEM_PROMPT ++ "\n\n" ++ "User request: " ++ msg
        ++ "\n\nGenerate the Next.js component code:"] ∧
    ¬ (("Previous conversation".data) <:+: ((buildPrompt "" []).data)) := by
  constructor
  · have hp : buildPrompt msg [] = SYSTEM_PROMPT ++ "\n\n" ++ "User request: " ++ msg
        ++ "\n\nGenerate the Next.js component code:" := rfl
    rcases hh with h | h <;> subst h <;>
      cases hb : backend (buildPrompt msg []) <;>
        rw [hp] at hb <;> simp [handleGenerate, hmsg, hb, hp]
  · intro hcontra
    rw [← containsSeq_iff] at hcontra
    have hfalse : containsSeq ("Previous conversation".data)
        ((buildPrompt "" []).data) = false := by decide
    rw [hfalse] at hcontra
    exact Bool.false_ne_true hcontra

/-- Witness for C6 at the concrete message `"hello"` with an absent
history field. -/
theorem prompt_empty_history_witness :
    ("hello" : String) ≠ "" ∧
    ((none : Option (List ChatTurn)) = none ∨
      (none : Option (List ChatTurn)) = some []) ∧
    ((handleGenerate (fun _ => BackendOutcome.ok "y")
        (GenerateRequest.mk (some "hello") none)).2 =
      [SYSTEM_PROMPT ++ "\n\n" ++ "User request: " ++ "hello"
        ++ "\n\nGenerate the Next.js component code:"] ∧
     ¬ (("Previous conversation".data) <:+: ((buildPrompt "" []).data))) :=
  ⟨by decide, Or.inl rfl,
    prompt_empty_history _ "hello" none (by decide) (Or.inl rfl)⟩

/-- C7: for a valid request with prior turns, the assembled prompt
contains, between the "Previous conversation:" header and the user
request, exactly the per-turn transcript lines `role: content` in the
order of `conversationHistory`, one line per turn. -/
theorem prompt_history_transcript (backend : String → BackendOutcome) (msg : String)
    (hs : List ChatTurn) (hmsg : msg ≠ "") (hne : hs ≠ []) :
    (handleGenerate backend (GenerateRequest.mk (some msg) (some hs))).2 =
      [SYSTEM_PROMPT ++ "\n\n" ++ "Previous conversation:\n"
        ++ concatAll (hs.map transcriptLine) ++ "\n"
        ++ "User request: " ++ msg ++ "\n\nGenerate the Next.js component code:"] ∧
    (hs.map transcriptLine).length = hs.length := by
  constructor
  · have hlen : 0 < hs.length := List.length_pos.mpr hne
    have hp : buildPrompt msg hs = SYSTEM_PROMPT ++ "\n\n" ++ "Previous conversation:\n"
        ++ concatAll (hs.map transcriptLine) ++ "\n"
        ++ "User request: " ++ msg ++ "\n\nGenerate the Next.js component code:" := by
      simp only [buildPrompt]
      rw [if_pos hlen]
      rw [foldl_transcript]
    cases hb : backend (buildPrompt msg hs) <;>
      rw [hp] at hb <;> simp [handleGenerate, hmsg, hb, hp]
  · simp

/-- Witness for C7 at a concrete one-turn history. -/
theorem prompt_history_transcript_witness :
    ("go" : String) ≠ "" ∧ ([ChatTurn.mk "user" "hi"] : List ChatTurn) ≠ [] ∧
    ((handleGenerate (fun _ => BackendOutcome.ok "z")
        (GenerateRequest.mk (some "go") (some [ChatTurn.mk "user" "hi"]))).2 =
      [SYSTEM_PROMPT ++ "\n\n" ++ "Previous conversation:\n"
        ++ concatAll ([ChatTurn.mk "user" "hi"].map transcriptLine) ++ "\n"
        ++ "User request: " ++ "go" ++ "\n\nGenerate the Next.js component code:"] ∧
     ([ChatTurn.mk "user" "hi"].map transcriptLine).length =
       ([ChatTurn.mk "user" "hi"] : List ChatTurn).length) :=
  ⟨by decide, by decide,
    prompt_history_transcript _ "go" [ChatTurn.mk "user" "hi"] (by decide) (by decide)⟩

/-- C8: when the backend call for a valid request fails with an error
carrying message `m`, the handler answers 500 with
`error: "Failed to generate code"` and `details = m`, after exactly one
backend call (no retry). -/
theorem backend_failure_returns_500 (backend : String → BackendOutcome)
    (msg m : String) (hist : Option (List ChatTurn)) (hmsg : msg ≠ "")
    (hfail : backend (buildPrompt msg (hist.getD [])) = BackendOutcome.failure m) :
    handleGenerate backend (GenerateRequest.mk (some msg) hist) =
      (ApiResponse.serverError "Failed to generate code" m,
        [buildPrompt msg (hist.getD [])]) := by
  simp [handleGenerate, hmsg, hfail]

/-- Witness for C8 at a concrete always-failing backend. -/
theorem backend_failure_returns_500_witness :
    ("hi" : String) ≠ "" ∧
    ((fun _ : String => BackendOutcome.failure "boom")
        (buildPrompt "hi" ((none : Option (List ChatTurn)).getD [])) =
      BackendOutcome.failure "boom") ∧
    handleGenerate (fun _ => BackendOutcome.failure "boom")
        (GenerateRequest.mk (some "hi") none) =
      (ApiResponse.serverError "Failed to generate code" "boom",
        [buildPrompt "hi" ((none : Option (List ChatTurn)).getD [])]) :=
  ⟨by decide, rfl,
    backend_failure_returns_500 _ "hi" "boom" none (by decide) rfl⟩

/-- C9: a non-empty message consisting only of whitespace characters
passes validation — the handler never answers the 400 validation error
and performs the backend call — because the check tests only falsiness
of the string. -/
theorem whitespace_message_passes_validation (backend : String → BackendOutcome)
    (hist : Option (List ChatTurn)) (msg : String) (h1 : msg ≠ "")
    (h2 : ∀ c ∈ msg.data, jsWhitespace c = true) :
    (∀ e, (handleGenerate backend (GenerateRequest.mk (some msg) hist)).1 ≠
      ApiResponse.badRequest e) ∧
    (handleGenerate backend (GenerateRequest.mk (some msg) hist)).2 =
      [buildPrompt msg (hist.getD [])] := by
  refine ⟨?_, ?_⟩
  · intro e
    cases hb : backend (buildPrompt msg (hist.getD [])) <;>
      simp [handleGenerate, h1, hb]
  · cases hb : backend (buildPrompt msg (hist.getD [])) <;>
      simp [handleGenerate, h1, hb]

/-- Witness for C9 at the concrete single-space message. -/
theorem whitespace_message_passes_validation_witness :
    (" " : String) ≠ "" ∧
    (∀ c ∈ (" " : String).data, jsWhitespace c = true) ∧
    ((∀ e, (handleGenerate (fun _ => BackendOutcome.ok "x")
        (GenerateRequest.mk (some " ") none)).1 ≠ ApiResponse.badRequest e) ∧
     (handleGenerate (fun _ => BackendOutcome.ok "x")
        (GenerateRequest.mk (some " ") none)).2 =
      [buildPrompt " " ((none : Option (List ChatTurn)).getD [])]) :=
  ⟨by decide, by decide,
    whitespace_message_passes_validation _ none " " (by decide) (by decide)⟩

/-- C10: a request with an entirely absent body is answered with the
500 backend-failure response carrying `error: "Failed to generate
code"`, not the 400 validation error, because destructuring the
missing body throws inside the try block and the generic catch answers
500; no backend call is made. -/
theorem undefined_body_returns_500 (backend : String → BackendOutcome) :
    handleRequest backend none =
      (ApiResponse.serverError "Failed to generate code" DESTRUCTURE_ERROR_MESSAGE, []) ∧
    ∀ e, (handleRequest backend none).1 ≠ ApiResponse.badRequest e := by
  refine ⟨rfl, ?_⟩
  intro e
  simp [handleRequest]

end Codely
